import Mathlib

/-
Verification of the multi-provider LLM invocation layer of the career-coach
backend (src/Backend/core/gemini_handler.py, src/Backend/core/groq_handler.py,
src/Backend/core/ai_core.py).

The Python code is shallowly embedded: environment variables become an
association list, provider SDK calls become oracles supplied as function
arguments (an oracle value models what the SDK call would return or raise for
a given credential), mutable singleton state becomes explicit state passing,
and the observable actions of one invocation (credential attempts, sleeps,
circuit transitions, fallback calls) are recorded in an event trace.
-/

set_option autoImplicit false

namespace CareerCoach

/-! ## Environment / configuration model (os.getenv and Python truthiness) -/

/-- Python truthiness of an `os.getenv` result: `None` and the empty string
are falsy, any other string is truthy. -/
def pyTruthy : Option String → Bool
  | none => false
  | some s => !s.data.isEmpty

/-- The process environment, as an association list; `getenv` returns the
first binding of a name, or `none` when the name is unset. -/
def getenv (env : List (String × String)) (k : String) : Option String :=
  (env.find? (fun p => p.1 == k)).map (fun p => p.2)

/-- Split a character list at commas (models Python `str.split(',')`). -/
def splitCommaAux : List Char → List Char → List (List Char)
  | [], acc => [acc.reverse]
  | c :: cs, acc =>
    if c = ',' then acc.reverse :: splitCommaAux cs []
    else splitCommaAux cs (c :: acc)

/-- Strip leading and trailing whitespace (models Python `str.strip()`). -/
def trimChars (l : List Char) : List Char :=
  ((l.dropWhile Char.isWhitespace).reverse.dropWhile Char.isWhitespace).reverse

/-- `[k.strip() for k in s.split(',') if k.strip()]`: split on commas, trim
each entry, discard entries that are empty after trimming. -/
def parseCommaKeys (s : String) : List String :=
  (((splitCommaAux s.data []).map trimChars).filter (fun l => !l.isEmpty)).map
    (fun l => String.mk l)

/-- The keys contributed by a comma-separated environment variable, guarded by
Python truthiness of the raw value (`if keys_str:` in both
`GeminiHandler._initialize_keys` and `setup_api_keys`). -/
def multiKeys (env : List (String × String)) (varName : String) : List String :=
  match getenv env varName with
  | some s => if s.data.isEmpty then [] else parseCommaKeys s
  | none => []

/-- `GeminiHandler._initialize_keys` (src/Backend/core/gemini_handler.py
lines 37-46): comma-separated `GEMINI_API_KEYS` first; only when that yields
no keys, `GOOGLE_API_KEY or GEMINI_API_KEY` contributes a single key. -/
def initialize_keys (env : List (String × String)) : List String :=
  let api_keys := multiKeys env "GEMINI_API_KEYS"
  if api_keys.isEmpty then
    let single :=
      if pyTruthy (getenv env "GOOGLE_API_KEY") then getenv env "GOOGLE_API_KEY"
      else getenv env "GEMINI_API_KEY"
    match single with
    | some s => if s.data.isEmpty then [] else [s]
    | none => []
  else api_keys

/-- The `while True` scan of `setup_api_keys` (src/Backend/core/ai_core.py
lines 48-59): read `GEMINI_API_KEY_i` starting at `i = 1`; a missing or empty
entry at `i = 1` falls back to `GOOGLE_API_KEY`; stop at the first gap; append
a found key only when it is not already accumulated. The loop performs at most
one successful iteration per distinct environment binding, so fuel
`env.length + 1` is enough to reach the stopping gap. -/
def scanNumbered (env : List (String × String)) : Nat → Nat → List String → List String
  | 0, _, acc => acc
  | fuel + 1, i, acc =>
    let key0 := getenv env ("GEMINI_API_KEY_" ++ toString i)
    let key := if i == 1 && !(pyTruthy key0) then getenv env "GOOGLE_API_KEY" else key0
    if pyTruthy key then
      let s := key.getD ""
      scanNumbered env fuel (i + 1) (if s ∈ acc then acc else acc ++ [s])
    else acc

/-- `setup_api_keys` (src/Backend/core/ai_core.py lines 41-59): extend with the
comma-separated `GEMINI_API_KEYS`, then always run the numbered scan on top of
the accumulated list. -/
def setup_api_keys (env : List (String × String)) : List String :=
  scanNumbered env (env.length + 1) 1 (multiKeys env "GEMINI_API_KEYS")

/-- Credential loading as the specification claims it: the comma-separated
value is used first, and the numbered scan (with its legacy fallback) runs
only when the comma-separated value yields no keys. Written from the claim's
words, to be compared against `setup_api_keys`. -/
def loadKeysClaimed (env : List (String × String)) : List String :=
  let multi := multiKeys env "GEMINI_API_KEYS"
  if multi.isEmpty then scanNumbered env (env.length + 1) 1 [] else multi

/-! ## Chat history and Groq request construction -/

/-- One prior chat turn, as the dictionaries the callers pass:
`{"role": ..., "parts": [...]}`. -/
structure Turn where
  role : String
  parts : List String
deriving Repr, DecidableEq

/-- A Groq chat message: `(role, content)`. -/
abbrev GroqMessage := String × String

/-- One history entry converted to a Groq message
(src/Backend/core/groq_handler.py lines 53-55): the role maps to `"user"`
exactly when it equals `"user"`, anything else to `"assistant"`; the content
is `h.get("parts", [""])[0]`, which raises `IndexError` (modelled as `none`)
when the parts list is empty. -/
def turnMessage (h : Turn) : Option GroqMessage :=
  match h.parts with
  | [] => none
  | c :: _ => some (if h.role == "user" then "user" else "assistant", c)

/-- The messages list `call_groq` builds (src/Backend/core/groq_handler.py
lines 50-57): every history turn in order, then the new prompt as a final
`"user"` message; `none` when some history turn makes the construction raise. -/
def buildGroqMessages (history : List Turn) (prompt : String) : Option (List GroqMessage) :=
  (history.mapM turnMessage).map (fun msgs => msgs ++ [("user", prompt)])

/-! ## Normalized responses -/

/-- The shape of a Gemini SDK success as the callers consume it: an object
exposing the generated text through `.text`. -/
structure GenaiResponse where
  text : String
deriving Repr, DecidableEq

/-- `MockResponse` (src/Backend/core/groq_handler.py lines 67-69): the wrapper
`call_groq` returns on success, exposing the generated text through `.text`. -/
structure MockResponse where
  text : String
deriving Repr, DecidableEq

/-- What `call_gemini` can hand back to its caller: a Gemini SDK response or a
Groq `MockResponse`. -/
abbrev ProviderResult := GenaiResponse ⊕ MockResponse

/-- The one normalized accessor both response shapes expose. -/
def ProviderResult.text : ProviderResult → String
  | Sum.inl r => r.text
  | Sum.inr m => m.text

/-! ## Observable events of one invocation -/

/-- Observable actions during one invocation. `delay` would record a blocking
sleep of the given number of seconds, were one executed between attempts. -/
inductive Event where
  | geminiAttempt (idx : Nat)
  | delay (seconds : Nat)
  | tripCircuit
  | circuitSkip
  | circuitReset
  | groqAttempt (i : Nat) (messages : List GroqMessage)
deriving Repr, DecidableEq

/-- Whether an event is a sleep between attempts. -/
def Event.isDelay : Event → Bool
  | .delay _ => true
  | _ => false

/-- The Gemini credential indices attempted, in order, read off a trace. -/
def geminiAttemptIndices : List Event → List Nat
  | [] => []
  | Event.geminiAttempt idx :: rest => idx :: geminiAttemptIndices rest
  | _ :: rest => geminiAttemptIndices rest

/-! ## Groq handler (src/Backend/core/groq_handler.py) -/

/-- Result of `GroqHandler.call_groq`: the returned value, the trace of
provider calls made, and the final value of the caller's `history` argument
(the function only reads it). -/
structure GroqResult where
  ret : Option MockResponse
  trace : List Event
  historyOut : Option (List Turn)
deriving Repr

/-- The `for i, key in enumerate(self.api_keys)` loop of `call_groq`: attempt
each key in order; the oracle returns `some text` when the SDK call succeeds
and `none` when it raises (every exception is caught and rotation continues);
first success returns immediately. -/
def groqLoop (oracle : Nat → List GroqMessage → Option String) (msgs : List GroqMessage) :
    Nat → List String → Option MockResponse × List Event
  | _, [] => (none, [])
  | i, _key :: rest =>
    match oracle i msgs with
    | some t => (some ⟨t⟩, [Event.groqAttempt i msgs])
    | none =>
      let r := groqLoop oracle msgs (i + 1) rest
      (r.1, Event.groqAttempt i msgs :: r.2)

/-- `GroqHandler.call_groq` (src/Backend/core/groq_handler.py lines 37-78):
empty pool returns `None` at once; otherwise the messages are built from the
history and the prompt, and the keys are rotated until a success; when message
construction raises, every iteration fails without a provider call. -/
def call_groq (keys : List String) (oracle : Nat → List GroqMessage → Option String)
    (prompt : String) (history : Option (List Turn)) : GroqResult :=
  if keys.isEmpty then ⟨none, [], history⟩
  else
    match buildGroqMessages (history.getD []) prompt with
    | none => ⟨none, [], history⟩
    | some msgs =>
      let r := groqLoop oracle msgs 0 keys
      ⟨r.1, r.2, history⟩

/-! ## Gemini handler (src/Backend/core/gemini_handler.py) -/

/-- The exceptions `call_gemini` catches, one constructor per except clause
(src/Backend/core/gemini_handler.py lines 114-126). -/
inductive GeminiError where
  | resourceExhausted
  | permissionDenied
  | internalServerError
  | serviceUnavailableErr
  | otherError
deriving Repr, DecidableEq

/-- The specification's error taxonomy. -/
inductive ErrorClass where
  | rateLimited
  | serviceUnavailable
  | unclassified
deriving Repr, DecidableEq

/-- How the except clauses classify each caught exception:
`ResourceExhausted` is the rate-limit clause; `PermissionDenied`,
`InternalServerError` and `ServiceUnavailable` share the transient-service
clause; anything else is the catch-all clause. -/
def classify : GeminiError → ErrorClass
  | .resourceExhausted => .rateLimited
  | .permissionDenied => .serviceUnavailable
  | .internalServerError => .serviceUnavailable
  | .serviceUnavailableErr => .serviceUnavailable
  | .otherError => .unclassified

/-- Outcome of one Gemini SDK call on one credential: a response, or a raised
exception. -/
inductive GeminiOutcome where
  | ok (resp : GenaiResponse)
  | error (e : GeminiError)
deriving Repr, DecidableEq

/-- Whether the attempt succeeded. -/
def GeminiOutcome.isOk : GeminiOutcome → Bool
  | .ok _ => true
  | .error _ => false

/-- The mutable singleton state of `GeminiHandler`. -/
structure GeminiState where
  api_keys : List String
  current_index : Nat
  circuit_open : Bool
  circuit_open_time : Int
deriving Repr, DecidableEq

/-- `self.circuit_breaker_timeout = 3600` (one hour). -/
def circuit_breaker_timeout : Int := 3600

/-- The `for i in range(num_keys)` rotation loop of `call_gemini`
(src/Backend/core/gemini_handler.py lines 80-126), over the list of remaining
offsets `i`: each attempt targets index `(current_index + i) % num_keys`; a
success stops the loop; each of the three except clauses moves to the next
credential with no sleep in between. -/
def rotateAttempts (oracle : Nat → GeminiOutcome) (cursor n : Nat) :
    List Nat → List Event × Option (Nat × GenaiResponse)
  | [] => ([], none)
  | i :: rest =>
    match oracle ((cursor + i) % n) with
    | .ok r => ([Event.geminiAttempt ((cursor + i) % n)], some (i, r))
    | .error e =>
      match classify e with
      | .rateLimited =>
        let t := rotateAttempts oracle cursor n rest
        (Event.geminiAttempt ((cursor + i) % n) :: t.1, t.2)
      | .serviceUnavailable =>
        let t := rotateAttempts oracle cursor n rest
        (Event.geminiAttempt ((cursor + i) % n) :: t.1, t.2)
      | .unclassified =>
        let t := rotateAttempts oracle cursor n rest
        (Event.geminiAttempt ((cursor + i) % n) :: t.1, t.2)

/-- Result of one `call_gemini` invocation: the returned value, the updated
singleton state, the event trace, and the final value of the caller's
`history` argument. -/
structure InvokeResult where
  ret : Option ProviderResult
  state : GeminiState
  trace : List Event
  historyOut : Option (List Turn)
deriving Repr

/-- `call_gemini` past the circuit-breaker check
(src/Backend/core/gemini_handler.py lines 73-134): empty pool returns `None`
with nothing else done; otherwise the rotation runs; on success at offset
`i > 0` the cursor moves to the succeeding index; on exhaustion the circuit is
tripped with `circuit_open_time` stamped to the current time and the request
is delegated to the Groq fallback. -/
def call_gemini_closed (st : GeminiState) (oracle : Nat → GeminiOutcome)
    (groqKeys : List String) (groqOracle : Nat → List GroqMessage → Option String)
    (now : Int) (prompt : String) (history : Option (List Turn)) : InvokeResult :=
  if st.api_keys.isEmpty then ⟨none, st, [], history⟩
  else
    let n := st.api_keys.length
    match rotateAttempts oracle st.current_index n (List.range n) with
    | (evs, some ir) =>
      let st' := if ir.1 > 0 then { st with current_index := (st.current_index + ir.1) % n } else st
      ⟨some (Sum.inl ir.2), st', evs, history⟩
    | (evs, none) =>
      let st' := { st with circuit_open := true, circuit_open_time := now }
      let g := call_groq groqKeys groqOracle prompt history
      ⟨g.ret.map Sum.inr, st', evs ++ Event.tripCircuit :: g.trace, history⟩

/-- `GeminiHandler.call_gemini` (src/Backend/core/gemini_handler.py
lines 62-134): with the circuit open and less than the timeout elapsed, the
call skips Gemini entirely and delegates to the Groq fallback; with the
circuit open and the timeout elapsed, the circuit flips closed and a normal
attempt proceeds; with the circuit closed, a normal attempt proceeds. -/
def call_gemini (st : GeminiState) (oracle : Nat → GeminiOutcome)
    (groqKeys : List String) (groqOracle : Nat → List GroqMessage → Option String)
    (now : Int) (prompt : String) (history : Option (List Turn)) : InvokeResult :=
  if st.circuit_open then
    if now - st.circuit_open_time < circuit_breaker_timeout then
      let g := call_groq groqKeys groqOracle prompt history
      ⟨g.ret.map Sum.inr, st, Event.circuitSkip :: g.trace, history⟩
    else
      let r := call_gemini_closed { st with circuit_open := false } oracle groqKeys groqOracle
        now prompt history
      { r with trace := Event.circuitReset :: r.trace }
  else call_gemini_closed st oracle groqKeys groqOracle now prompt history

/-! ## Helper lemmas -/

theorem isOk_false_exists {o : GeminiOutcome} (h : o.isOk = false) :
    ∃ e, o = GeminiOutcome.error e := by
  cases o with
  | ok r => simp [GeminiOutcome.isOk] at h
  | error e => exact ⟨e, rfl⟩

theorem rotateAttempts_ok (oracle : Nat → GeminiOutcome) (cursor n i : Nat)
    (rest : List Nat) (r : GenaiResponse) (ho : oracle ((cursor + i) % n) = .ok r) :
    rotateAttempts oracle cursor n (i :: rest) =
      ([Event.geminiAttempt ((cursor + i) % n)], some (i, r)) := by
  simp [rotateAttempts, ho]

theorem rotateAttempts_error (oracle : Nat → GeminiOutcome) (cursor n i : Nat)
    (rest : List Nat) (e : GeminiError) (ho : oracle ((cursor + i) % n) = .error e) :
    rotateAttempts oracle cursor n (i :: rest) =
      (Event.geminiAttempt ((cursor + i) % n) :: (rotateAttempts oracle cursor n rest).1,
        (rotateAttempts oracle cursor n rest).2) := by
  cases e <;> simp [rotateAttempts, ho, classify]

theorem rotateAttempts_append_fail (oracle : Nat → GeminiOutcome) (cursor n : Nat)
    (l₁ l₂ : List Nat) (hf : ∀ j ∈ l₁, (oracle ((cursor + j) % n)).isOk = false) :
    rotateAttempts oracle cursor n (l₁ ++ l₂) =
      ((l₁.map fun j => Event.geminiAttempt ((cursor + j) % n))
          ++ (rotateAttempts oracle cursor n l₂).1,
        (rotateAttempts oracle cursor n l₂).2) := by
  induction l₁ with
  | nil => simp
  | cons a t ih =>
    obtain ⟨e, he⟩ := isOk_false_exists (hf a (by simp))
    rw [List.cons_append, rotateAttempts_error oracle cursor n a (t ++ l₂) e he,
      ih (fun j hj => hf j (List.mem_cons_of_mem a hj))]
    simp

theorem rotateAttempts_all_fail (oracle : Nat → GeminiOutcome) (cursor n : Nat)
    (l : List Nat) (hf : ∀ j ∈ l, (oracle ((cursor + j) % n)).isOk = false) :
    rotateAttempts oracle cursor n l =
      (l.map fun j => Event.geminiAttempt ((cursor + j) % n), none) := by
  have h := rotateAttempts_append_fail oracle cursor n l [] hf
  simpa [rotateAttempts] using h

theorem groqLoop_trace_shape (oracle : Nat → List GroqMessage → Option String)
    (msgs : List GroqMessage) (keys : List String) :
    ∀ i, ∀ e ∈ (groqLoop oracle msgs i keys).2, ∃ a m, e = Event.groqAttempt a m := by
  induction keys with
  | nil => intro i e he; simp [groqLoop] at he
  | cons k rest ih =>
    intro i e he
    cases ho : oracle i msgs with
    | some t => simp [groqLoop, ho] at he; exact ⟨i, msgs, he⟩
    | none =>
      simp only [groqLoop, ho] at he
      rcases List.mem_cons.mp he with h | h
      · exact ⟨i, msgs, h⟩
      · exact ih (i + 1) e h

theorem call_groq_trace_shape (keys : List String)
    (oracle : Nat → List GroqMessage → Option String) (prompt : String)
    (history : Option (List Turn)) :
    ∀ e ∈ (call_groq keys oracle prompt history).trace, ∃ a m, e = Event.groqAttempt a m := by
  intro e he
  unfold call_groq at he
  split at he
  · simp at he
  · split at he
    · simp at he
    · exact groqLoop_trace_shape oracle _ keys 0 e he

theorem groqLoop_ret_none (oracle : Nat → List GroqMessage → Option String)
    (msgs : List GroqMessage) (h : ∀ i m, oracle i m = none) (keys : List String) :
    ∀ i, (groqLoop oracle msgs i keys).1 = none := by
  induction keys with
  | nil => intro i; simp [groqLoop]
  | cons k rest ih => intro i; simp [groqLoop, h i msgs, ih (i + 1)]

theorem call_groq_ret_none (keys : List String)
    (oracle : Nat → List GroqMessage → Option String) (prompt : String)
    (history : Option (List Turn)) (h : ∀ i m, oracle i m = none) :
    (call_groq keys oracle prompt history).ret = none := by
  unfold call_groq
  split
  · rfl
  · split
    · rfl
    · exact groqLoop_ret_none oracle _ h keys 0

theorem call_groq_historyOut (keys : List String)
    (oracle : Nat → List GroqMessage → Option String) (prompt : String)
    (history : Option (List Turn)) :
    (call_groq keys oracle prompt history).historyOut = history := by
  unfold call_groq
  split
  · rfl
  · split <;> rfl

theorem geminiAttemptIndices_append (l₁ l₂ : List Event) :
    geminiAttemptIndices (l₁ ++ l₂) = geminiAttemptIndices l₁ ++ geminiAttemptIndices l₂ := by
  induction l₁ with
  | nil => simp [geminiAttemptIndices]
  | cons e t ih => cases e <;> simp [geminiAttemptIndices, ih]

theorem geminiAttemptIndices_map_attempts (l : List Nat) (f : Nat → Nat) :
    geminiAttemptIndices (l.map fun j => Event.geminiAttempt (f j)) = l.map f := by
  induction l with
  | nil => rfl
  | cons a t ih => simp [geminiAttemptIndices, ih]

theorem geminiAttemptIndices_of_shape (l : List Event)
    (h : ∀ e ∈ l, ∃ a m, e = Event.groqAttempt a m) : geminiAttemptIndices l = [] := by
  induction l with
  | nil => rfl
  | cons e t ih =>
    obtain ⟨a, m, rfl⟩ := h e (by simp)
    exact (by simpa [geminiAttemptIndices] using ih (fun x hx => h x (List.mem_cons_of_mem _ hx)))

theorem geminiAttemptIndices_call_groq (keys : List String)
    (oracle : Nat → List GroqMessage → Option String) (prompt : String)
    (history : Option (List Turn)) :
    geminiAttemptIndices (call_groq keys oracle prompt history).trace = [] :=
  geminiAttemptIndices_of_shape _ (call_groq_trace_shape keys oracle prompt history)

theorem rotation_indices_nodup (k n : Nat) :
    ((List.range n).map fun i => (k + i) % n).Nodup := by
  refine List.Nodup.map_on ?_ (List.nodup_range n)
  intro i hi j hj hij
  rw [List.mem_range] at hi hj
  have h2 : i % n = j % n := Nat.ModEq.add_left_cancel' k hij
  rwa [Nat.mod_eq_of_lt hi, Nat.mod_eq_of_lt hj] at h2

theorem call_gemini_closed_all_fail (st : GeminiState) (oracle : Nat → GeminiOutcome)
    (groqKeys : List String) (groqOracle : Nat → List GroqMessage → Option String)
    (now : Int) (prompt : String) (history : Option (List Turn))
    (hne : st.api_keys ≠ [])
    (hfail : ∀ idx < st.api_keys.length, (oracle idx).isOk = false) :
    call_gemini_closed st oracle groqKeys groqOracle now prompt history =
      ⟨(call_groq groqKeys groqOracle prompt history).ret.map Sum.inr,
        { st with circuit_open := true, circuit_open_time := now },
        ((List.range st.api_keys.length).map fun i =>
            Event.geminiAttempt ((st.current_index + i) % st.api_keys.length))
          ++ Event.tripCircuit :: (call_groq groqKeys groqOracle prompt history).trace,
        history⟩ := by
  have hn : 0 < st.api_keys.length := List.length_pos.mpr hne
  have hf : ∀ j ∈ List.range st.api_keys.length,
      (oracle ((st.current_index + j) % st.api_keys.length)).isOk = false := by
    intro j _
    exact hfail _ (Nat.mod_lt _ hn)
  unfold call_gemini_closed
  rw [if_neg (by simp [List.isEmpty_iff, hne])]
  simp only [rotateAttempts_all_fail oracle st.current_index st.api_keys.length
    (List.range st.api_keys.length) hf]

theorem rotateAttempts_trace_shape (oracle : Nat → GeminiOutcome) (cursor n : Nat) :
    ∀ l, ∀ e ∈ (rotateAttempts oracle cursor n l).1, ∃ idx, e = Event.geminiAttempt idx := by
  intro l
  induction l with
  | nil => intro e he; simp [rotateAttempts] at he
  | cons i rest ih =>
    intro e he
    cases ho : oracle ((cursor + i) % n) with
    | ok r =>
      rw [rotateAttempts_ok oracle cursor n i rest r ho] at he
      simp at he
      exact ⟨_, he⟩
    | error er =>
      rw [rotateAttempts_error oracle cursor n i rest er ho] at he
      rcases List.mem_cons.mp he with h | h
      · exact ⟨_, h⟩
      · exact ih e h

theorem rotateAttempts_trace_head (oracle : Nat → GeminiOutcome) (cursor n i : Nat)
    (rest : List Nat) :
    ∃ t, (rotateAttempts oracle cursor n (i :: rest)).1
      = Event.geminiAttempt ((cursor + i) % n) :: t := by
  cases ho : oracle ((cursor + i) % n) with
  | ok r => exact ⟨[], by rw [rotateAttempts_ok oracle cursor n i rest r ho]⟩
  | error er => exact ⟨_, by rw [rotateAttempts_error oracle cursor n i rest er ho]⟩

theorem call_gemini_closed_first_success (st : GeminiState) (oracle : Nat → GeminiOutcome)
    (groqKeys : List String) (groqOracle : Nat → List GroqMessage → Option String)
    (now : Int) (prompt : String) (history : Option (List Turn)) (i : Nat) (r : GenaiResponse)
    (hi : i < st.api_keys.length)
    (hbefore : ∀ j < i, (oracle ((st.current_index + j) % st.api_keys.length)).isOk = false)
    (hsucc : oracle ((st.current_index + i) % st.api_keys.length) = .ok r) :
    call_gemini_closed st oracle groqKeys groqOracle now prompt history =
      ⟨some (Sum.inl r),
        if i > 0 then { st with current_index := (st.current_index + i) % st.api_keys.length }
        else st,
        (List.range (i + 1)).map fun j =>
          Event.geminiAttempt ((st.current_index + j) % st.api_keys.length),
        history⟩ := by
  have hne : st.api_keys ≠ [] := List.length_pos.mp (by omega)
  have hsplit : List.range st.api_keys.length
      = List.range i ++ i :: ((List.range (st.api_keys.length - (i + 1))).map
          fun x => (i + 1) + x) := by
    have h1 : List.range st.api_keys.length
        = List.range (i + 1) ++ (List.range (st.api_keys.length - (i + 1))).map
            (fun x => (i + 1) + x) := by
      rw [← List.range_add]
      congr 1
      omega
    rw [h1, List.range_succ, List.append_assoc, List.singleton_append]
  unfold call_gemini_closed
  rw [if_neg (by simp [List.isEmpty_iff, hne])]
  simp only [hsplit,
    rotateAttempts_append_fail oracle st.current_index st.api_keys.length (List.range i) _
      (fun j hj => hbefore j (List.mem_range.mp hj)),
    rotateAttempts_ok oracle st.current_index st.api_keys.length i _ r hsucc]
  simp [List.range_succ]

theorem call_gemini_closed_trace_head (st : GeminiState) (oracle : Nat → GeminiOutcome)
    (groqKeys : List String) (groqOracle : Nat → List GroqMessage → Option String)
    (now : Int) (prompt : String) (history : Option (List Turn))
    (hne : st.api_keys ≠ []) :
    ∃ evs, (call_gemini_closed st oracle groqKeys groqOracle now prompt history).trace
      = Event.geminiAttempt (st.current_index % st.api_keys.length) :: evs := by
  have hn : 0 < st.api_keys.length := List.length_pos.mpr hne
  have hrange : List.range st.api_keys.length
      = 0 :: (List.range (st.api_keys.length - 1)).map Nat.succ := by
    conv_lhs => rw [show st.api_keys.length = (st.api_keys.length - 1) + 1 by omega]
    rw [List.range_succ_eq_map]
  obtain ⟨t, ht⟩ := rotateAttempts_trace_head oracle st.current_index st.api_keys.length 0
    ((List.range (st.api_keys.length - 1)).map Nat.succ)
  rw [Nat.add_zero] at ht
  unfold call_gemini_closed
  rw [if_neg (by simp [List.isEmpty_iff, hne])]
  simp only [hrange]
  rcases hsp : rotateAttempts oracle st.current_index st.api_keys.length
      (0 :: (List.range (st.api_keys.length - 1)).map Nat.succ) with ⟨evs, res⟩
  have hevs : evs = Event.geminiAttempt (st.current_index % st.api_keys.length) :: t := by
    rw [← ht, hsp]
  cases res with
  | some ir => exact ⟨t, by simp [hevs]⟩
  | none =>
    exact ⟨t ++ Event.tripCircuit
      :: (call_groq groqKeys groqOracle prompt history).trace, by simp [hevs]⟩

theorem call_gemini_closed_trace_events (st : GeminiState) (oracle : Nat → GeminiOutcome)
    (groqKeys : List String) (groqOracle : Nat → List GroqMessage → Option String)
    (now : Int) (prompt : String) (history : Option (List Turn)) :
    ∀ e ∈ (call_gemini_closed st oracle groqKeys groqOracle now prompt history).trace,
      (∃ idx, e = Event.geminiAttempt idx) ∨ e = Event.tripCircuit
        ∨ ∃ a m, e = Event.groqAttempt a m := by
  intro e he
  unfold call_gemini_closed at he
  by_cases hemp : st.api_keys.isEmpty
  · rw [if_pos hemp] at he
    simp at he
  · rw [if_neg hemp] at he
    rcases hsp : rotateAttempts oracle st.current_index st.api_keys.length
        (List.range st.api_keys.length) with ⟨evs, res⟩
    have hshape := rotateAttempts_trace_shape oracle st.current_index st.api_keys.length
      (List.range st.api_keys.length)
    rw [hsp] at hshape
    simp only [hsp] at he
    cases res with
    | some ir =>
      simp only at he
      exact Or.inl (hshape e he)
    | none =>
      simp only at he
      rcases List.mem_append.mp he with h | h
      · exact Or.inl (hshape e h)
      · rcases List.mem_cons.mp h with h' | h'
        · exact Or.inr (Or.inl h')
        · exact Or.inr (Or.inr (call_groq_trace_shape groqKeys groqOracle prompt history e h'))

theorem call_gemini_closed_ret_none (st : GeminiState) (oracle : Nat → GeminiOutcome)
    (groqKeys : List String) (groqOracle : Nat → List GroqMessage → Option String)
    (now : Int) (prompt : String) (history : Option (List Turn))
    (hfail : ∀ idx < st.api_keys.length, (oracle idx).isOk = false)
    (hgroq : ∀ i m, groqOracle i m = none) :
    (call_gemini_closed st oracle groqKeys groqOracle now prompt history).ret = none := by
  by_cases hne : st.api_keys = []
  · unfold call_gemini_closed
    rw [if_pos (by simp [hne])]
  · rw [call_gemini_closed_all_fail st oracle groqKeys groqOracle now prompt history hne hfail]
    simp [call_groq_ret_none groqKeys groqOracle prompt history hgroq]

theorem call_gemini_closed_historyOut (st : GeminiState) (oracle : Nat → GeminiOutcome)
    (groqKeys : List String) (groqOracle : Nat → List GroqMessage → Option String)
    (now : Int) (prompt : String) (history : Option (List Turn)) :
    (call_gemini_closed st oracle groqKeys groqOracle now prompt history).historyOut
      = history := by
  unfold call_gemini_closed
  by_cases hemp : st.api_keys.isEmpty
  · rw [if_pos hemp]
  · rw [if_neg hemp]
    rcases hsp : rotateAttempts oracle st.current_index st.api_keys.length
        (List.range st.api_keys.length) with ⟨evs, res⟩
    simp only [hsp]
    cases res <;> rfl

theorem call_gemini_historyOut (st : GeminiState) (oracle : Nat → GeminiOutcome)
    (groqKeys : List String) (groqOracle : Nat → List GroqMessage → Option String)
    (now : Int) (prompt : String) (history : Option (List Turn)) :
    (call_gemini st oracle groqKeys groqOracle now prompt history).historyOut = history := by
  unfold call_gemini
  by_cases hco : st.circuit_open
  · rw [if_pos hco]
    by_cases ht : now - st.circuit_open_time < circuit_breaker_timeout
    · rw [if_pos ht]
    · rw [if_neg ht]
      exact call_gemini_closed_historyOut _ oracle groqKeys groqOracle now prompt history
  · rw [if_neg hco]
    exact call_gemini_closed_historyOut st oracle groqKeys groqOracle now prompt history

theorem call_groq_first_key_success (k : String) (rest : List String)
    (groqOracle : Nat → List GroqMessage → Option String) (prompt : String)
    (history : Option (List Turn)) (msgs : List GroqMessage) (t : String)
    (hmsgs : buildGroqMessages (history.getD []) prompt = some msgs)
    (hgo : groqOracle 0 msgs = some t) :
    (call_groq (k :: rest) groqOracle prompt history).ret = some ⟨t⟩ := by
  unfold call_groq
  rw [if_neg (by simp)]
  simp only [hmsgs]
  simp [groqLoop, hgo]

theorem mapM_turnMessage (history : List Turn)
    (hparts : ∀ h ∈ history, h.parts ≠ []) :
    history.mapM turnMessage
      = some (history.map fun h =>
          (if h.role == "user" then "user" else "assistant", h.parts.headD "")) := by
  induction history with
  | nil => rfl
  | cons a tl ih =>
    obtain ⟨c, cs, hc⟩ : ∃ c cs, a.parts = c :: cs := by
      cases hp : a.parts with
      | nil => exact absurd hp (hparts a (by simp))
      | cons c cs => exact ⟨c, cs, rfl⟩
    rw [List.mapM_cons, ih (fun h hh => hparts h (List.mem_cons_of_mem a hh))]
    simp [turnMessage, hc]

theorem scanNumbered_mem_mono (env : List (String × String)) :
    ∀ fuel i acc v, v ∈ acc → v ∈ scanNumbered env fuel i acc := by
  intro fuel
  induction fuel with
  | zero => intro i acc v hv; simpa [scanNumbered] using hv
  | succ f ih =>
    intro i acc v hv
    simp only [scanNumbered]
    split
    all_goals
      split
      · apply ih
        split
        · exact hv
        · exact List.mem_append_left _ hv
      · exact hv

theorem scanNumbered_count_mem (env : List (String × String)) :
    ∀ fuel i acc v, v ∈ acc →
      (scanNumbered env fuel i acc).count v = acc.count v := by
  intro fuel
  induction fuel with
  | zero => intro i acc v _; simp [scanNumbered]
  | succ f ih =>
    intro i acc v hv
    have h0 : ∀ s : String, s ∉ acc → List.count v [s] = 0 := by
      intro s hs'
      rw [List.count_eq_zero]
      intro hm
      simp at hm
      exact hs' (hm ▸ hv)
    simp only [scanNumbered]
    split
    all_goals
      split
      · split
        · exact ih (i + 1) acc v hv
        · rename_i hs
          rw [ih (i + 1) _ v (List.mem_append_left _ hv), List.count_append, h0 _ hs]
          omega
      · rfl

theorem geminiAttemptIndices_trip_cons (l : List Event) :
    geminiAttemptIndices (Event.tripCircuit :: l) = geminiAttemptIndices l := rfl

theorem geminiAttemptIndices_reset_cons (l : List Event) :
    geminiAttemptIndices (Event.circuitReset :: l) = geminiAttemptIndices l := rfl

theorem geminiAttemptIndices_skip_cons (l : List Event) :
    geminiAttemptIndices (Event.circuitSkip :: l) = geminiAttemptIndices l := rfl

/-! ## Claim theorems -/

/-- Claim C1: with the circuit closed and a non-empty pool of `N` keys whose
cursor sits at `k`, an invocation in which every credential fails attempts
exactly the indices `k, (k+1) % N, ..., (k+N-1) % N`, in that order, each
exactly once (the attempted list is that map and it has no duplicates), and
only then trips the circuit and delegates to the Groq fallback, whose result
is what the call returns. -/
theorem C1_rotation_order (st : GeminiState) (oracle : Nat → GeminiOutcome)
    (groqKeys : List String) (groqOracle : Nat → List GroqMessage → Option String)
    (now : Int) (prompt : String) (history : Option (List Turn))
    (hclosed : st.circuit_open = false) (hne : st.api_keys ≠ [])
    (_hk : st.current_index < st.api_keys.length)
    (hfail : ∀ idx < st.api_keys.length, (oracle idx).isOk = false) :
    (call_gemini st oracle groqKeys groqOracle now prompt history).trace
        = ((List.range st.api_keys.length).map fun i =>
            Event.geminiAttempt ((st.current_index + i) % st.api_keys.length))
          ++ Event.tripCircuit :: (call_groq groqKeys groqOracle prompt history).trace
    ∧ geminiAttemptIndices (call_gemini st oracle groqKeys groqOracle now prompt history).trace
        = ((List.range st.api_keys.length).map fun i =>
            (st.current_index + i) % st.api_keys.length)
    ∧ ((List.range st.api_keys.length).map fun i =>
          (st.current_index + i) % st.api_keys.length).Nodup
    ∧ (call_gemini st oracle groqKeys groqOracle now prompt history).ret
        = (call_groq groqKeys groqOracle prompt history).ret.map Sum.inr
    ∧ (call_gemini st oracle groqKeys groqOracle now prompt history).state.circuit_open
        = true := by
  have hcg : call_gemini st oracle groqKeys groqOracle now prompt history
      = call_gemini_closed st oracle groqKeys groqOracle now prompt history := by
    unfold call_gemini
    rw [if_neg (by simp [hclosed])]
  rw [hcg, call_gemini_closed_all_fail st oracle groqKeys groqOracle now prompt history hne hfail]
  refine ⟨rfl, ?_, rotation_indices_nodup _ _, rfl, rfl⟩
  rw [geminiAttemptIndices_append, geminiAttemptIndices_map_attempts,
    geminiAttemptIndices_trip_cons, geminiAttemptIndices_call_groq, List.append_nil]

/-- Witness for C1: three keys, cursor at 1, every key rate-limits; the
attempted indices are 1, 2, 0 and the call trips the circuit. -/
theorem C1_witness :
    (call_gemini ⟨["A", "B", "C"], 1, false, 0⟩
        (fun _ => GeminiOutcome.error GeminiError.resourceExhausted)
        [] (fun _ _ => none) 0 "p" none).trace
        = ((List.range 3).map fun i => Event.geminiAttempt ((1 + i) % 3))
          ++ Event.tripCircuit :: (call_groq [] (fun _ _ => none) "p" none).trace
    ∧ geminiAttemptIndices (call_gemini ⟨["A", "B", "C"], 1, false, 0⟩
        (fun _ => GeminiOutcome.error GeminiError.resourceExhausted)
        [] (fun _ _ => none) 0 "p" none).trace
        = ((List.range 3).map fun i => (1 + i) % 3)
    ∧ ((List.range 3).map fun i => (1 + i) % 3).Nodup
    ∧ (call_gemini ⟨["A", "B", "C"], 1, false, 0⟩
        (fun _ => GeminiOutcome.error GeminiError.resourceExhausted)
        [] (fun _ _ => none) 0 "p" none).ret
        = (call_groq [] (fun _ _ => none) "p" none).ret.map Sum.inr
    ∧ (call_gemini ⟨["A", "B", "C"], 1, false, 0⟩
        (fun _ => GeminiOutcome.error GeminiError.resourceExhausted)
        [] (fun _ _ => none) 0 "p" none).state.circuit_open = true :=
  C1_rotation_order ⟨["A", "B", "C"], 1, false, 0⟩
    (fun _ => GeminiOutcome.error GeminiError.resourceExhausted)
    [] (fun _ _ => none) 0 "p" none rfl (by decide) (by decide) (by decide)

/-- Claim C2: when the credential at rotation position `i` is the first to
succeed, the attempted indices are exactly those of positions `0..i` (nothing
later is attempted), the provider response is returned immediately, and the
cursor moves to the succeeding credential's index — which leaves it unchanged
when `i = 0`. Stated for any call that reaches the rotation: circuit closed,
or open with the timeout elapsed. -/
theorem C2_first_success (st : GeminiState) (oracle : Nat → GeminiOutcome)
    (groqKeys : List String) (groqOracle : Nat → List GroqMessage → Option String)
    (now : Int) (prompt : String) (history : Option (List Turn)) (i : Nat) (r : GenaiResponse)
    (hready : st.circuit_open = false
      ∨ (st.circuit_open = true ∧ circuit_breaker_timeout ≤ now - st.circuit_open_time))
    (hk : st.current_index < st.api_keys.length)
    (hi : i < st.api_keys.length)
    (hbefore : ∀ j < i, (oracle ((st.current_index + j) % st.api_keys.length)).isOk = false)
    (hsucc : oracle ((st.current_index + i) % st.api_keys.length) = .ok r) :
    (call_gemini st oracle groqKeys groqOracle now prompt history).ret = some (Sum.inl r)
    ∧ geminiAttemptIndices (call_gemini st oracle groqKeys groqOracle now prompt history).trace
        = ((List.range (i + 1)).map fun j => (st.current_index + j) % st.api_keys.length)
    ∧ (call_gemini st oracle groqKeys groqOracle now prompt history).state.current_index
        = (st.current_index + i) % st.api_keys.length
    ∧ (i = 0 →
        (call_gemini st oracle groqKeys groqOracle now prompt history).state.current_index
          = st.current_index) := by
  have hcursor : ∀ st0 : GeminiState, st0.current_index = st.current_index →
      st0.api_keys = st.api_keys →
      (if i > 0 then { st0 with current_index := (st0.current_index + i) % st0.api_keys.length }
        else st0).current_index = (st.current_index + i) % st.api_keys.length
      ∧ (i = 0 →
        (if i > 0 then
            { st0 with current_index := (st0.current_index + i) % st0.api_keys.length }
          else st0).current_index = st.current_index) := by
    intro st0 hci hak
    rcases Nat.eq_zero_or_pos i with h0 | hpos
    · subst h0
      rw [if_neg (by omega)]
      constructor
      · rw [hci, Nat.add_zero, Nat.mod_eq_of_lt hk]
      · intro _
        exact hci
    · constructor
      · rw [if_pos hpos]
        simp [hci, hak]
      · intro h0
        exact absurd h0 (by omega)
  rcases hready with hclosed | ⟨hopen, helapsed⟩
  · have hcg : call_gemini st oracle groqKeys groqOracle now prompt history
        = call_gemini_closed st oracle groqKeys groqOracle now prompt history := by
      unfold call_gemini
      rw [if_neg (by simp [hclosed])]
    rw [hcg, call_gemini_closed_first_success st oracle groqKeys groqOracle now prompt history
      i r hi hbefore hsucc]
    obtain ⟨hc1, hc2⟩ := hcursor st rfl rfl
    exact ⟨rfl, geminiAttemptIndices_map_attempts _ _, hc1, hc2⟩
  · have hcg : call_gemini st oracle groqKeys groqOracle now prompt history
        = { call_gemini_closed { st with circuit_open := false } oracle groqKeys groqOracle
              now prompt history with
            trace := Event.circuitReset
              :: (call_gemini_closed { st with circuit_open := false } oracle groqKeys
                  groqOracle now prompt history).trace } := by
      unfold call_gemini
      rw [if_pos (by simp [hopen]), if_neg (not_lt.mpr helapsed)]
    rw [hcg, call_gemini_closed_first_success { st with circuit_open := false } oracle groqKeys
      groqOracle now prompt history i r hi hbefore hsucc]
    obtain ⟨hc1, hc2⟩ := hcursor { st with circuit_open := false } rfl rfl
    exact ⟨rfl, by
      rw [geminiAttemptIndices_reset_cons, geminiAttemptIndices_map_attempts], hc1, hc2⟩

/-- Witness for C2: three keys, cursor at 0, positions 0 and 1 rate-limit,
position 2 succeeds; the result is the position-2 response and the cursor
moves to index 2. -/
theorem C2_witness :
    (call_gemini ⟨["A", "B", "C"], 0, false, 0⟩
        (fun idx => if idx = 2 then GeminiOutcome.ok ⟨"yes"⟩
          else GeminiOutcome.error GeminiError.resourceExhausted)
        ["g"] (fun _ _ => none) 0 "p" none).ret = some (Sum.inl ⟨"yes"⟩)
    ∧ geminiAttemptIndices (call_gemini ⟨["A", "B", "C"], 0, false, 0⟩
        (fun idx => if idx = 2 then GeminiOutcome.ok ⟨"yes"⟩
          else GeminiOutcome.error GeminiError.resourceExhausted)
        ["g"] (fun _ _ => none) 0 "p" none).trace
        = ((List.range 3).map fun j => (0 + j) % 3)
    ∧ (call_gemini ⟨["A", "B", "C"], 0, false, 0⟩
        (fun idx => if idx = 2 then GeminiOutcome.ok ⟨"yes"⟩
          else GeminiOutcome.error GeminiError.resourceExhausted)
        ["g"] (fun _ _ => none) 0 "p" none).state.current_index = (0 + 2) % 3
    ∧ (2 = 0 →
        (call_gemini ⟨["A", "B", "C"], 0, false, 0⟩
          (fun idx => if idx = 2 then GeminiOutcome.ok ⟨"yes"⟩
            else GeminiOutcome.error GeminiError.resourceExhausted)
          ["g"] (fun _ _ => none) 0 "p" none).state.current_index = 0) :=
  C2_first_success ⟨["A", "B", "C"], 0, false, 0⟩
    (fun idx => if idx = 2 then GeminiOutcome.ok ⟨"yes"⟩
      else GeminiOutcome.error GeminiError.resourceExhausted)
    ["g"] (fun _ _ => none) 0 "p" none 2 ⟨"yes"⟩
    (Or.inl rfl) (by decide) (by decide) (by decide) (by decide)

/-- Claim C3 counterexample: two keys, key 0 rate-limits
(`ResourceExhausted`) and key 1 succeeds. The claim requires a nonzero delay
between the two attempts, but the trace consists of the two attempts and
nothing else — no delay event of any duration occurs. -/
theorem C3_counterexample :
    (call_gemini ⟨["A", "B"], 0, false, 0⟩
        (fun idx => if idx = 0 then GeminiOutcome.error GeminiError.resourceExhausted
          else GeminiOutcome.ok ⟨"hi"⟩)
        ["g"] (fun _ _ => none) 0 "p" none).trace
      = [Event.geminiAttempt 0, Event.geminiAttempt 1]
    ∧ ((call_gemini ⟨["A", "B"], 0, false, 0⟩
        (fun idx => if idx = 0 then GeminiOutcome.error GeminiError.resourceExhausted
          else GeminiOutcome.ok ⟨"hi"⟩)
        ["g"] (fun _ _ => none) 0 "p" none).trace.all fun e => !e.isDelay) = true := by
  decide

/-- Claim C3 as amended: no invocation ever sleeps between attempts — a
`RateLimited` classification is followed by the next credential attempt with
no delay, exactly like `ServiceUnavailable` and `Unclassified`; the trace of
every call contains no delay event. -/
theorem C3_amended_no_delay_between_attempts (st : GeminiState)
    (oracle : Nat → GeminiOutcome) (groqKeys : List String)
    (groqOracle : Nat → List GroqMessage → Option String)
    (now : Int) (prompt : String) (history : Option (List Turn)) :
    ((call_gemini st oracle groqKeys groqOracle now prompt history).trace.all
      fun e => !e.isDelay) = true := by
  rw [List.all_eq_true]
  intro e he
  unfold call_gemini at he
  by_cases hco : st.circuit_open
  · rw [if_pos hco] at he
    by_cases ht : now - st.circuit_open_time < circuit_breaker_timeout
    · rw [if_pos ht] at he
      simp only at he
      rcases List.mem_cons.mp he with h | h
      · rw [h]; rfl
      · obtain ⟨a, m, rfl⟩ := call_groq_trace_shape groqKeys groqOracle prompt history e h
        rfl
    · rw [if_neg ht] at he
      simp only at he
      rcases List.mem_cons.mp he with h | h
      · rw [h]; rfl
      · rcases call_gemini_closed_trace_events _ oracle groqKeys groqOracle now prompt history
            e h with ⟨idx, rfl⟩ | rfl | ⟨a, m, rfl⟩ <;> rfl
  · rw [if_neg hco] at he
    rcases call_gemini_closed_trace_events st oracle groqKeys groqOracle now prompt history
        e he with ⟨idx, rfl⟩ | rfl | ⟨a, m, rfl⟩ <;> rfl

/-- Claim C10: a call with the circuit closed and no Gemini keys configured
returns `None` at once — no provider attempt, no fallback, and the breaker
state, cursor and history all unchanged. -/
theorem C10_empty_pool_fails_fast (st : GeminiState) (oracle : Nat → GeminiOutcome)
    (groqKeys : List String) (groqOracle : Nat → List GroqMessage → Option String)
    (now : Int) (prompt : String) (history : Option (List Turn))
    (hclosed : st.circuit_open = false) (hempty : st.api_keys = []) :
    call_gemini st oracle groqKeys groqOracle now prompt history
      = ⟨none, st, [], history⟩ := by
  unfold call_gemini
  rw [if_neg (by simp [hclosed])]
  unfold call_gemini_closed
  rw [if_pos (by simp [hempty])]

/-- Witness for C10: empty pool with a nontrivial cursor and timestamps;
the call is a no-op returning `None`. -/
theorem C10_witness :
    call_gemini ⟨[], 5, false, 7⟩ (fun _ => GeminiOutcome.ok ⟨"hi"⟩)
        ["g"] (fun _ _ => some "t") 99 "p" (some [])
      = ⟨none, ⟨[], 5, false, 7⟩, [], some []⟩ :=
  C10_empty_pool_fails_fast ⟨[], 5, false, 7⟩ (fun _ => GeminiOutcome.ok ⟨"hi"⟩)
    ["g"] (fun _ _ => some "t") 99 "p" (some []) rfl rfl

/-- Claim C4: an all-fail invocation leaves the circuit open with
`circuit_open_time` stamped to the invocation's current time; and any call
made while the circuit is open with less than the timeout elapsed makes no
Gemini attempt, produces exactly the skip event followed by the Groq
fallback's trace, returns the fallback's result, and leaves the state
untouched. -/
theorem C4_circuit_trip_then_skip (st : GeminiState) (oracle : Nat → GeminiOutcome)
    (groqKeys : List String) (groqOracle : Nat → List GroqMessage → Option String)
    (now : Int) (prompt : String) (history : Option (List Turn))
    (st2 : GeminiState) (oracle2 : Nat → GeminiOutcome)
    (groqKeys2 : List String) (groqOracle2 : Nat → List GroqMessage → Option String)
    (now2 : Int) (prompt2 : String) (history2 : Option (List Turn))
    (hclosed : st.circuit_open = false) (hne : st.api_keys ≠ [])
    (hfail : ∀ idx < st.api_keys.length, (oracle idx).isOk = false)
    (hopen2 : st2.circuit_open = true)
    (hfresh2 : now2 - st2.circuit_open_time < circuit_breaker_timeout) :
    ((call_gemini st oracle groqKeys groqOracle now prompt history).state.circuit_open = true
      ∧ (call_gemini st oracle groqKeys groqOracle now prompt history).state.circuit_open_time
          = now)
    ∧ (geminiAttemptIndices
          (call_gemini st2 oracle2 groqKeys2 groqOracle2 now2 prompt2 history2).trace = []
      ∧ (call_gemini st2 oracle2 groqKeys2 groqOracle2 now2 prompt2 history2).trace
          = Event.circuitSkip :: (call_groq groqKeys2 groqOracle2 prompt2 history2).trace
      ∧ (call_gemini st2 oracle2 groqKeys2 groqOracle2 now2 prompt2 history2).ret
          = (call_groq groqKeys2 groqOracle2 prompt2 history2).ret.map Sum.inr
      ∧ (call_gemini st2 oracle2 groqKeys2 groqOracle2 now2 prompt2 history2).state = st2) := by
  constructor
  · have hcg : call_gemini st oracle groqKeys groqOracle now prompt history
        = call_gemini_closed st oracle groqKeys groqOracle now prompt history := by
      unfold call_gemini
      rw [if_neg (by simp [hclosed])]
    rw [hcg,
      call_gemini_closed_all_fail st oracle groqKeys groqOracle now prompt history hne hfail]
    exact ⟨rfl, rfl⟩
  · have hcg2 : call_gemini st2 oracle2 groqKeys2 groqOracle2 now2 prompt2 history2
        = ⟨(call_groq groqKeys2 groqOracle2 prompt2 history2).ret.map Sum.inr, st2,
            Event.circuitSkip :: (call_groq groqKeys2 groqOracle2 prompt2 history2).trace,
            history2⟩ := by
      unfold call_gemini
      rw [if_pos (by simp [hopen2]), if_pos hfresh2]
    rw [hcg2]
    refine ⟨?_, rfl, rfl, rfl⟩
    rw [geminiAttemptIndices_skip_cons, geminiAttemptIndices_call_groq]

/-- Witness for C4: a single-key pool that fails trips the circuit at time
100; a call at time 200 against an open circuit opened at 100 is a pure
fallback delegation. -/
theorem C4_witness :
    ((call_gemini ⟨["A"], 0, false, 0⟩
        (fun _ => GeminiOutcome.error GeminiError.serviceUnavailableErr)
        ["g"] (fun _ _ => none) 100 "p" none).state.circuit_open = true
      ∧ (call_gemini ⟨["A"], 0, false, 0⟩
          (fun _ => GeminiOutcome.error GeminiError.serviceUnavailableErr)
          ["g"] (fun _ _ => none) 100 "p" none).state.circuit_open_time = 100)
    ∧ (geminiAttemptIndices (call_gemini ⟨["A"], 0, true, 100⟩
          (fun _ => GeminiOutcome.ok ⟨"hi"⟩)
          ["g"] (fun _ _ => some "t") 200 "p" none).trace = []
      ∧ (call_gemini ⟨["A"], 0, true, 100⟩ (fun _ => GeminiOutcome.ok ⟨"hi"⟩)
          ["g"] (fun _ _ => some "t") 200 "p" none).trace
          = Event.circuitSkip :: (call_groq ["g"] (fun _ _ => some "t") "p" none).trace
      ∧ (call_gemini ⟨["A"], 0, true, 100⟩ (fun _ => GeminiOutcome.ok ⟨"hi"⟩)
          ["g"] (fun _ _ => some "t") 200 "p" none).ret
          = (call_groq ["g"] (fun _ _ => some "t") "p" none).ret.map Sum.inr
      ∧ (call_gemini ⟨["A"], 0, true, 100⟩ (fun _ => GeminiOutcome.ok ⟨"hi"⟩)
          ["g"] (fun _ _ => some "t") 200 "p" none).state = ⟨["A"], 0, true, 100⟩) :=
  C4_circuit_trip_then_skip ⟨["A"], 0, false, 0⟩
    (fun _ => GeminiOutcome.error GeminiError.serviceUnavailableErr)
    ["g"] (fun _ _ => none) 100 "p" none
    ⟨["A"], 0, true, 100⟩ (fun _ => GeminiOutcome.ok ⟨"hi"⟩)
    ["g"] (fun _ _ => some "t") 200 "p" none
    rfl (by decide) (by decide) rfl (by decide)

/-- Claim C5: a call arriving with the circuit open and at least the timeout
elapsed since it opened flips the circuit closed (the reset event) and
immediately attempts the primary provider's cursor credential: the trace
starts with the reset followed by a Gemini attempt at the cursor index, and
the call never short-circuits to the fallback (no skip event anywhere). -/
theorem C5_circuit_reset_reattempts (st : GeminiState) (oracle : Nat → GeminiOutcome)
    (groqKeys : List String) (groqOracle : Nat → List GroqMessage → Option String)
    (now : Int) (prompt : String) (history : Option (List Turn))
    (hopen : st.circuit_open = true)
    (helapsed : circuit_breaker_timeout ≤ now - st.circuit_open_time)
    (hne : st.api_keys ≠ [])
    (hk : st.current_index < st.api_keys.length) :
    (∃ evs, (call_gemini st oracle groqKeys groqOracle now prompt history).trace
        = Event.circuitReset :: Event.geminiAttempt st.current_index :: evs)
    ∧ Event.circuitSkip ∉ (call_gemini st oracle groqKeys groqOracle now prompt history).trace := by
  have hcg : call_gemini st oracle groqKeys groqOracle now prompt history
      = { call_gemini_closed { st with circuit_open := false } oracle groqKeys groqOracle
            now prompt history with
          trace := Event.circuitReset
            :: (call_gemini_closed { st with circuit_open := false } oracle groqKeys
                groqOracle now prompt history).trace } := by
    unfold call_gemini
    rw [if_pos (by simp [hopen]), if_neg (not_lt.mpr helapsed)]
  obtain ⟨evs, hevs⟩ := call_gemini_closed_trace_head { st with circuit_open := false } oracle
    groqKeys groqOracle now prompt history hne
  have hmod : ({ st with circuit_open := false } : GeminiState).current_index
      % ({ st with circuit_open := false } : GeminiState).api_keys.length
      = st.current_index := Nat.mod_eq_of_lt hk
  rw [hmod] at hevs
  constructor
  · exact ⟨evs, by rw [hcg]; simp only; rw [hevs]⟩
  · rw [hcg]
    simp only
    intro hmem
    rcases List.mem_cons.mp hmem with h | h
    · exact absurd h (by decide)
    · rcases call_gemini_closed_trace_events { st with circuit_open := false } oracle groqKeys
          groqOracle now prompt history Event.circuitSkip h with ⟨idx, h'⟩ | h' | ⟨a, m, h'⟩
      · simp at h'
      · simp at h'
      · simp at h'

/-- Witness for C5: circuit open since time 0, call at time 3600 with a
two-key pool and the cursor at 1; the trace starts with the reset and an
attempt at index 1, and no skip occurs. -/
theorem C5_witness :
    (∃ evs, (call_gemini ⟨["A", "B"], 1, true, 0⟩
        (fun _ => GeminiOutcome.error GeminiError.resourceExhausted)
        [] (fun _ _ => none) 3600 "p" none).trace
        = Event.circuitReset :: Event.geminiAttempt 1 :: evs)
    ∧ Event.circuitSkip ∉ (call_gemini ⟨["A", "B"], 1, true, 0⟩
        (fun _ => GeminiOutcome.error GeminiError.resourceExhausted)
        [] (fun _ _ => none) 3600 "p" none).trace :=
  C5_circuit_reset_reattempts ⟨["A", "B"], 1, true, 0⟩
    (fun _ => GeminiOutcome.error GeminiError.resourceExhausted)
    [] (fun _ _ => none) 3600 "p" none rfl (by decide) (by decide) (by decide)

/-- Claim C6: when every Gemini credential fails and every Groq attempt
fails, `call_gemini` returns the single failure value `None`; exceptions are
modelled explicitly as oracle outcomes, and the function is total, so no
exception reaches the caller. -/
theorem C6_terminal_failure (st : GeminiState) (oracle : Nat → GeminiOutcome)
    (groqKeys : List String) (groqOracle : Nat → List GroqMessage → Option String)
    (now : Int) (prompt : String) (history : Option (List Turn))
    (hfail : ∀ idx < st.api_keys.length, (oracle idx).isOk = false)
    (hgroq : ∀ i m, groqOracle i m = none) :
    (call_gemini st oracle groqKeys groqOracle now prompt history).ret = none := by
  unfold call_gemini
  by_cases hco : st.circuit_open
  · rw [if_pos hco]
    by_cases ht : now - st.circuit_open_time < circuit_breaker_timeout
    · rw [if_pos ht]
      simp [call_groq_ret_none groqKeys groqOracle prompt history hgroq]
    · rw [if_neg ht]
      exact call_gemini_closed_ret_none { st with circuit_open := false } oracle groqKeys
        groqOracle now prompt history hfail hgroq
  · rw [if_neg hco]
    exact call_gemini_closed_ret_none st oracle groqKeys groqOracle now prompt history
      hfail hgroq

/-- Witness for C6: two Gemini keys that raise unclassified errors and two
Groq keys that all raise; the call returns `None`. -/
theorem C6_witness :
    (∀ idx < 2,
      ((fun _ => GeminiOutcome.error GeminiError.otherError : Nat → GeminiOutcome) idx).isOk
        = false)
    ∧ (call_gemini ⟨["A", "B"], 0, false, 0⟩
        (fun _ => GeminiOutcome.error GeminiError.otherError)
        ["g1", "g2"] (fun _ _ => none) 0 "p" none).ret = none :=
  ⟨by decide,
    C6_terminal_failure ⟨["A", "B"], 0, false, 0⟩
      (fun _ => GeminiOutcome.error GeminiError.otherError)
      ["g1", "g2"] (fun _ _ => none) 0 "p" none (by decide) (fun _ _ => rfl)⟩

/-- Claim C7 counterexample: with both `GEMINI_API_KEYS="a"` and
`GEMINI_API_KEY_1="b"` set, the claim says the numbered scan is skipped (the
comma value yielded a key), so loading should give `["a"]`; `setup_api_keys`
scans the numbered sequence unconditionally and gives `["a", "b"]`. -/
theorem C7_counterexample :
    setup_api_keys [("GEMINI_API_KEYS", "a"), ("GEMINI_API_KEY_1", "b")] = ["a", "b"]
    ∧ loadKeysClaimed [("GEMINI_API_KEYS", "a"), ("GEMINI_API_KEY_1", "b")] = ["a"]
    ∧ setup_api_keys [("GEMINI_API_KEYS", "a"), ("GEMINI_API_KEY_1", "b")]
        ≠ loadKeysClaimed [("GEMINI_API_KEYS", "a"), ("GEMINI_API_KEY_1", "b")] := by
  decide

/-- Claim C7 as amended: `GeminiHandler._initialize_keys` does give the
comma-separated value strict priority (the legacy single keys are consulted
only when it yields nothing), but `setup_api_keys` runs the numbered scan
unconditionally — a truthy `GEMINI_API_KEY_1` always lands in the result,
even when the comma-separated value yielded keys; duplicates across the two
sources are still never added twice (the count of a comma-loaded key is
unchanged by the scan). -/
theorem C7_amended_key_loading (env : List (String × String)) :
    (multiKeys env "GEMINI_API_KEYS" ≠ [] →
      initialize_keys env = multiKeys env "GEMINI_API_KEYS")
    ∧ (∀ v, getenv env "GEMINI_API_KEY_1" = some v → v.data ≠ [] →
        v ∈ setup_api_keys env)
    ∧ (∀ v ∈ multiKeys env "GEMINI_API_KEYS",
        v ∈ setup_api_keys env
        ∧ (setup_api_keys env).count v = (multiKeys env "GEMINI_API_KEYS").count v) := by
  refine ⟨?_, ?_, ?_⟩
  · intro hmne
    unfold initialize_keys
    rw [if_neg (by simp [List.isEmpty_iff, hmne])]
  · intro v hv hvd
    have hpt : pyTruthy (getenv env "GEMINI_API_KEY_1") = true := by
      rw [hv]
      simp [pyTruthy, hvd]
    unfold setup_api_keys
    simp only [scanNumbered]
    rw [show ("GEMINI_API_KEY_" ++ toString 1) = "GEMINI_API_KEY_1" by decide, hpt]
    simp only [Bool.not_true, Bool.and_false, Bool.false_eq_true, if_false, hpt, if_true, hv,
      Option.getD_some]
    rw [if_pos (hv ▸ hpt)]
    apply scanNumbered_mem_mono
    split
    · assumption
    · exact List.mem_append_right _ (by simp)
  · intro v hvmem
    exact ⟨scanNumbered_mem_mono env _ 1 _ v hvmem,
      scanNumbered_count_mem env _ 1 _ v hvmem⟩

/-- Witness for C7's amended claim: strict priority in
`_initialize_keys`, the unconditional numbered scan, and cross-source
de-duplication, each at a concrete environment. -/
theorem C7_amended_witness :
    initialize_keys [("GEMINI_API_KEYS", "x,y")]
        = multiKeys [("GEMINI_API_KEYS", "x,y")] "GEMINI_API_KEYS"
    ∧ "b" ∈ setup_api_keys [("GEMINI_API_KEYS", "a"), ("GEMINI_API_KEY_1", "b")]
    ∧ ("a" ∈ setup_api_keys [("GEMINI_API_KEYS", "a"), ("GEMINI_API_KEY_1", "a")]
      ∧ (setup_api_keys [("GEMINI_API_KEYS", "a"), ("GEMINI_API_KEY_1", "a")]).count "a"
          = (multiKeys [("GEMINI_API_KEYS", "a"), ("GEMINI_API_KEY_1", "a")]
              "GEMINI_API_KEYS").count "a") :=
  ⟨(C7_amended_key_loading [("GEMINI_API_KEYS", "x,y")]).1 (by decide),
    (C7_amended_key_loading [("GEMINI_API_KEYS", "a"), ("GEMINI_API_KEY_1", "b")]).2.1 "b"
      (by decide) (by decide),
    (C7_amended_key_loading [("GEMINI_API_KEYS", "a"), ("GEMINI_API_KEY_1", "a")]).2.2 "a"
      (by decide)⟩

/-- Claim C8: when every Gemini credential fails and the Groq fallback's
first key succeeds with text `t`, the caller receives `some` result whose
normalized `text` accessor — the same accessor a Gemini success exposes —
yields exactly `t`. -/
theorem C8_fallback_transparency (st : GeminiState) (oracle : Nat → GeminiOutcome)
    (gk0 : String) (gkrest : List String)
    (groqOracle : Nat → List GroqMessage → Option String)
    (now : Int) (prompt : String) (history : Option (List Turn))
    (msgs : List GroqMessage) (t : String)
    (hclosed : st.circuit_open = false) (hne : st.api_keys ≠ [])
    (hfail : ∀ idx < st.api_keys.length, (oracle idx).isOk = false)
    (hmsgs : buildGroqMessages (history.getD []) prompt = some msgs)
    (hgo : groqOracle 0 msgs = some t) :
    (call_gemini st oracle (gk0 :: gkrest) groqOracle now prompt history).ret
        = some (Sum.inr ⟨t⟩)
    ∧ ((call_gemini st oracle (gk0 :: gkrest) groqOracle now prompt history).ret.map
        ProviderResult.text) = some t := by
  have hcg : call_gemini st oracle (gk0 :: gkrest) groqOracle now prompt history
      = call_gemini_closed st oracle (gk0 :: gkrest) groqOracle now prompt history := by
    unfold call_gemini
    rw [if_neg (by simp [hclosed])]
  rw [hcg, call_gemini_closed_all_fail st oracle (gk0 :: gkrest) groqOracle now prompt history
    hne hfail]
  simp only [call_groq_first_key_success gk0 gkrest groqOracle prompt history msgs t hmsgs hgo]
  exact ⟨rfl, rfl⟩

/-- Witness for C8: one failing Gemini key, one Groq key answering "pong";
the call returns a result whose `text` is "pong". -/
theorem C8_witness :
    (call_gemini ⟨["k"], 0, false, 0⟩ (fun _ => GeminiOutcome.error GeminiError.otherError)
        ["g"] (fun i m => if i = 0 && m == [("user", "p")] then some "pong" else none)
        0 "p" none).ret = some (Sum.inr ⟨"pong"⟩)
    ∧ ((call_gemini ⟨["k"], 0, false, 0⟩ (fun _ => GeminiOutcome.error GeminiError.otherError)
        ["g"] (fun i m => if i = 0 && m == [("user", "p")] then some "pong" else none)
        0 "p" none).ret.map ProviderResult.text) = some "pong" :=
  C8_fallback_transparency ⟨["k"], 0, false, 0⟩
    (fun _ => GeminiOutcome.error GeminiError.otherError) "g" []
    (fun i m => if i = 0 && m == [("user", "p")] then some "pong" else none)
    0 "p" none [("user", "p")] "pong" rfl (by decide) (by decide) (by decide) (by decide)

/-- Claim C9: for a multi-turn request, the messages handed to the provider
are every prior turn, in original order with roles mapped, followed by the new
prompt as the final user message; and neither handler modifies the caller's
history — the history threaded through `call_groq` and `call_gemini` comes
back unchanged, the call returning only the response. -/
theorem C9_multiturn_request (history : List Turn) (prompt : String)
    (hparts : ∀ h ∈ history, h.parts ≠ []) :
    ∃ msgs, buildGroqMessages history prompt = some msgs
      ∧ msgs.length = history.length + 1
      ∧ msgs.take history.length
          = history.map (fun h =>
              (if h.role == "user" then "user" else "assistant", h.parts.headD ""))
      ∧ msgs.getLast? = some ("user", prompt)
      ∧ (∀ keys oracle,
          (call_groq keys oracle prompt (some history)).historyOut = some history)
      ∧ (∀ (st : GeminiState) (gOracle : Nat → GeminiOutcome) (gk : List String)
          (go : Nat → List GroqMessage → Option String) (now : Int),
          (call_gemini st gOracle gk go now prompt (some history)).historyOut
            = some history) := by
  refine ⟨(history.map fun h =>
      (if h.role == "user" then "user" else "assistant", h.parts.headD ""))
      ++ [("user", prompt)], ?_, ?_, ?_, ?_, ?_, ?_⟩
  · unfold buildGroqMessages
    rw [mapM_turnMessage history hparts]
    rfl
  · simp
  · rw [show history.length
      = (history.map fun h =>
          (if h.role == "user" then "user" else "assistant", h.parts.headD "")).length
      by simp]
    exact List.take_left _ _
  · exact List.getLast?_concat _
  · intro keys oracle
    exact call_groq_historyOut keys oracle prompt (some history)
  · intro st gOracle gk go now
    exact call_gemini_historyOut st gOracle gk go now prompt (some history)

/-- Witness for C9 at a three-turn history. -/
theorem C9_witness :
    ∃ msgs, buildGroqMessages
        [⟨"user", ["u1"]⟩, ⟨"model", ["m1"]⟩, ⟨"user", ["u2"]⟩] "p" = some msgs
      ∧ msgs.length = ([⟨"user", ["u1"]⟩, ⟨"model", ["m1"]⟩,
          (⟨"user", ["u2"]⟩ : Turn)] : List Turn).length + 1
      ∧ msgs.take ([⟨"user", ["u1"]⟩, ⟨"model", ["m1"]⟩,
          (⟨"user", ["u2"]⟩ : Turn)] : List Turn).length
          = ([⟨"user", ["u1"]⟩, ⟨"model", ["m1"]⟩,
              (⟨"user", ["u2"]⟩ : Turn)] : List Turn).map (fun h =>
              (if h.role == "user" then "user" else "assistant", h.parts.headD ""))
      ∧ msgs.getLast? = some ("user", "p")
      ∧ (∀ keys oracle, (call_groq keys oracle "p"
          (some [⟨"user", ["u1"]⟩, ⟨"model", ["m1"]⟩, ⟨"user", ["u2"]⟩])).historyOut
          = some [⟨"user", ["u1"]⟩, ⟨"model", ["m1"]⟩, ⟨"user", ["u2"]⟩])
      ∧ (∀ (st : GeminiState) (gOracle : Nat → GeminiOutcome) (gk : List String)
          (go : Nat → List GroqMessage → Option String) (now : Int),
          (call_gemini st gOracle gk go now "p"
            (some [⟨"user", ["u1"]⟩, ⟨"model", ["m1"]⟩, ⟨"user", ["u2"]⟩])).historyOut
            = some [⟨"user", ["u1"]⟩, ⟨"model", ["m1"]⟩, ⟨"user", ["u2"]⟩]) :=
  C9_multiturn_request [⟨"user", ["u1"]⟩, ⟨"model", ["m1"]⟩, ⟨"user", ["u2"]⟩] "p" (by decide)

end CareerCoach
